import Mathlib

/-
Verification of the envsync Safe Synchronization Engine
(envsync/core/safe_sync.py, envsync/core/diff.py, envsync/core/scanner.py,
envsync/core/rsync_config.py, envsync/utils/crypto.py).

Embedding conventions:
- Python strings are embedded as lists of characters (Str := List Char), so
  that slicing, startswith, strip, lexicographic comparison and the "in"
  operator are ordinary computable list functions.  Python string literals
  appear as Lean string literals converted with .data.
- External processes (rsync, git) are collaborators: each invocation is an
  oracle value recording its exit code, captured output and its effect on the
  destination file tree.  The engine only inspects exit codes and output
  lines, exactly as the source does.
- File trees are maps from component paths to file contents; the external
  bulk-transfer utility is modelled by its documented mirroring semantics
  (rsyncMirror below).
- Exceptions are modelled with Except; a Python function that catches all
  exceptions internally is embedded as a total function.
-/

/-- A Python string, embedded as its list of characters. -/
abbrev Str : Type := List Char

/-- Python s.startswith(p). -/
def pyStarts (s p : Str) : Bool := p.isPrefixOf s

/-- Python s.endswith(p). -/
def pyEnds (s p : Str) : Bool := p.reverse.isPrefixOf s.reverse

/-- The characters Python str.strip() removes by default. -/
def isSpaceChar (c : Char) : Bool :=
  c = ' ' || c = '\t' || c = '\n' || c = '\r' || c = '\x0b' || c = '\x0c'

/-- Python s.strip(): whitespace removed from both ends. -/
def pyStrip (s : Str) : Str :=
  ((s.dropWhile isSpaceChar).reverse.dropWhile isSpaceChar).reverse

/-- Python membership test needle in hay (contiguous substring). -/
def pyIn (needle : Str) : Str → Bool
  | [] => needle.isEmpty
  | c :: rest => needle.isPrefixOf (c :: rest) || pyIn needle rest

/-- Python s.partition(" ") collapsed to the pair (before, after): the text
before the first space and the text after it; when no space occurs the second
component is empty, matching how diff.py only tests the path for emptiness. -/
def pyPartitionSp : Str → Str × Str
  | [] => ([], [])
  | c :: rest =>
    if c = ' ' then ([], rest)
    else
      let (a, b) := pyPartitionSp rest
      (c :: a, b)

/-- Python lexicographic string comparison a <= b (by code point). -/
def pyLe : Str → Str → Bool
  | [], _ => true
  | _ :: _, [] => false
  | a :: as, b :: bs => if a = b then pyLe as bs else decide (a < b)

/-- Python sep.join(parts). -/
def pyJoin (sep : Str) : List Str → Str
  | [] => []
  | [x] => x
  | x :: y :: xs => x ++ sep ++ pyJoin sep (y :: xs)

/-- Python x or y on strings: y when x is empty. -/
def pyOr (a b : Str) : Str := if a.isEmpty then b else a

/-- Splitting a raw character stream on newline characters (helper). -/
def splitOnNl : Str → List Str
  | [] => [[]]
  | c :: rest =>
    if c = '\n' then [] :: splitOnNl rest
    else
      match splitOnNl rest with
      | [] => [[c]]
      | seg :: segs => (c :: seg) :: segs

/-- Python s.splitlines(): newline-separated lines, no trailing empty line. -/
def pySplitLines (s : Str) : List Str :=
  if s.isEmpty then []
  else if pyEnds s ("\n".data) then (splitOnNl s).dropLast
  else splitOnNl s

/-- RSYNC_EXCLUDES from envsync/core/rsync_config.py: the shared rsync
exclude argument list. -/
def RSYNC_EXCLUDES : List Str :=
  [("--exclude=.git".data), ("--exclude=.envsync".data), ("--exclude=node_modules".data),
   ("--exclude=__pycache__".data), ("--exclude=*.pyc".data), ("--exclude=*.pyo".data),
   ("--exclude=.DS_Store".data), ("--exclude=*.swp".data), ("--exclude=.venv".data),
   ("--exclude=venv".data)]

/-- The bare patterns of RSYNC_EXCLUDES: each argument minus the leading
ten characters "--exclude=". -/
def excludePatterns : List Str := RSYNC_EXCLUDES.map (fun a => a.drop 10)

/-- A path inside a mirrored tree, as its list of path components. -/
abbrev FPath : Type := List Str

/-- The content of a file tree: path to file contents, none when absent. -/
abbrev FileMap : Type := FPath → Option Str

/-- The empty file tree. -/
def emptyFs : FileMap := fun _ => none

/-- One rsync exclude pattern matched against one path component: a leading
star matches any name with that suffix, otherwise the name must match
exactly (the only two pattern forms occurring in this repository). -/
def patMatches (pat name : Str) : Bool :=
  match pat with
  | '*' :: suf => pyEnds name suf
  | _ => decide (name = pat)

/-- A path is excluded when any of its components matches any pattern
(rsync applies exclude patterns to every path element). -/
def pathExcluded (pats : List Str) (p : FPath) : Bool :=
  p.any (fun comp => pats.any (fun pat => patMatches pat comp))

/-- Mirroring semantics of the external bulk-transfer utility
(rsync -a [--delete] with --exclude patterns), the collaborator the engine
drives (spec section 4.1): excluded paths are left untouched on the
destination, every other path is overwritten from the source, and with
delete the destination-only paths are removed. -/
def rsyncMirror (pats : List Str) (delete : Bool) (src dst : FileMap) : FileMap :=
  fun p =>
    if pathExcluded pats p then dst p
    else
      match src p with
      | some v => some v
      | none => if delete then none else dst p

/-- EnvEntry from envsync/core/config.py (the extras mapping is never read by
the engine and is omitted). -/
structure EnvEntry where
  name : Str
  type : Str
  path : Str
  host : Option Str := none
  user : Option Str := none
deriving DecidableEq

/-- ConfigData from envsync/core/config.py, restricted to the environment
registry the engine reads (the gitlab descriptor is unused here). -/
structure ConfigData where
  envs : List (Str × EnvEntry)

/-- EnvContext from envsync/utils/envs.py (the lazily created SSH client is
a collaborator and carries no data of its own). -/
structure EnvContext where
  name : Str
  entry : EnvEntry
deriving DecidableEq

/-- EnvContext.is_remote: host not in (None, "", "localhost", "127.0.0.1"). -/
def EnvContext.is_remote (c : EnvContext) : Bool :=
  match c.entry.host with
  | none => false
  | some h =>
    !(h.isEmpty || decide (h = ("localhost".data)) || decide (h = ("127.0.0.1".data)))

/-- EnvContext.display: user@host:path for remote environments, else path. -/
def EnvContext.display (c : EnvContext) : Str :=
  if c.is_remote then
    (match c.entry.user with
     | some u => if u.isEmpty then [] else u ++ ("@".data)
     | none => []) ++ (c.entry.host.getD []) ++ (":".data) ++ c.entry.path
  else c.entry.path

/-- The _ctx helper shared by SafeSyncService, DiffService and
ProjectScanner: raises ValueError for an unconfigured environment name,
otherwise yields the EnvContext. -/
def ctxOf (cfg : ConfigData) (env : Str) : Except Str EnvContext :=
  match cfg.envs.lookup env with
  | none => Except.error (("环境未配置: ".data) ++ env)
  | some e => Except.ok ⟨env, e⟩

/-- SyncCheckpoint from envsync/core/safe_sync.py. -/
structure SyncCheckpoint where
  timestamp : Str
  env_name : Str
  backup_path : Str
  git_commit : Option Str := none
  file_checksums : List (Str × Str) := []
deriving DecidableEq

/-- One metadata file checkpoint-ENV-TS.json inside the checkpoints
directory, modelled by the two varying filename segments ENV and TS; parsed
is the outcome of json.loads plus the SyncCheckpoint constructor, none when
the file contents are invalid. -/
structure MetaFile where
  fenv : Str
  fts : Str
  parsed : Option SyncCheckpoint
deriving DecidableEq

/-- The state the engine manipulates: the source tree (read only), the
target tree, the backup directories under the checkpoints area, and the
checkpoint metadata files. -/
structure WorldState where
  source : FileMap
  target : FileMap
  backups : List (Str × FileMap)
  metaStore : List MetaFile

/-- Lookup of a backup directory by path. -/
def lookupBackup (bs : List (Str × FileMap)) (k : Str) : Option FileMap :=
  bs.lookup k

/-- Removal of a backup directory (shutil.rmtree; absent directories are
simply not present in the list). -/
def removeBackup (bs : List (Str × FileMap)) (k : Str) : List (Str × FileMap) :=
  bs.filter (fun e => !(e.1 == k))

/-- Creation or replacement of a backup directory with given content. -/
def setBackup (bs : List (Str × FileMap)) (k : Str) (v : FileMap) :
    List (Str × FileMap) :=
  (k, v) :: removeBackup bs k

/-- The backup directory name backup-ENV-TS used by _create_checkpoint. -/
def backupDirName (envName ts : Str) : Str :=
  ("backup-".data) ++ envName ++ ("-".data) ++ ts

/-- meta_file.write_text: the metadata file checkpoint-ENV-TS.json is
created or overwritten with the serialized checkpoint. -/
def writeMeta (store : List MetaFile) (envName ts : Str) (cp : SyncCheckpoint) :
    List MetaFile :=
  store.filter (fun m => !(m.fenv == envName && m.fts == ts)) ++ [⟨envName, ts, some cp⟩]

/-- The ordering key of sorted(checkpoints, key=lambda c: c.timestamp,
reverse=True): a before b when the timestamp of a is at least that of b. -/
def tsGe (a b : SyncCheckpoint) : Prop := pyLe b.timestamp a.timestamp = true

instance : DecidableRel tsGe := fun a b => inferInstanceAs (Decidable (_ = true))

/-- SafeSyncService.list_checkpoints: globs checkpoint-ENV-*.json, skips any
file whose contents fail to parse, and returns the checkpoints sorted by
timestamp descending (Python sorted is a stable sort; insertionSort is the
stable sort of the model). -/
def list_checkpoints (store : List MetaFile) (env : Str) : List SyncCheckpoint :=
  List.insertionSort tsGe
    ((store.filter (fun m => m.fenv == env)).filterMap (fun m => m.parsed))

/-- SafeSyncService._find_checkpoint: the most recent checkpoint when no id
is given, else the first listed checkpoint carrying the requested
timestamp. -/
def find_checkpoint (store : List MetaFile) (env : Str) (checkpoint_id : Option Str) :
    Option SyncCheckpoint :=
  let checkpoints := list_checkpoints store env
  match checkpoints, checkpoint_id with
  | [], _ => none
  | first :: _, none => some first
  | _ :: _, some i => checkpoints.find? (fun cp => cp.timestamp == i)

/-- SafeSyncService.cleanup_checkpoints: keeps the keep most recent
checkpoints and, for each older one, removes its backup directory when
present and its metadata file when present.  keep is the non-negative
retention count (Python checkpoints[keep:] equals drop keep for keep >= 0). -/
def cleanup_checkpoints (env : Str) (keep : Nat) (st : WorldState) : WorldState :=
  let checkpoints := list_checkpoints st.metaStore env
  (checkpoints.drop keep).foldl
    (fun s cp =>
      { s with
        backups := removeBackup s.backups cp.backup_path,
        metaStore := s.metaStore.filter
          (fun m => !(m.fenv == env && m.fts == cp.timestamp)) })
    st

/-- A well-formed checkpoints directory for env: every parsed metadata file
matching the env glob records in its contents the timestamp its filename
carries (as _create_checkpoint writes them), and filenames are distinct
(they are files of one directory). -/
def wfStore (store : List MetaFile) (env : Str) : Prop :=
  (∀ m ∈ store, m.fenv = env →
     (m.parsed.all fun cp => cp.timestamp == m.fts) = true)
  ∧ ((store.filter (fun m => m.fenv == env)).map (fun m => m.fts)).Nodup

instance (store : List MetaFile) (env : Str) : Decidable (wfStore store env) := by
  unfold wfStore
  infer_instance

/-- Exit codes the engine accepts from the transfer utility: full success or
the partial/vanished-file code (returncode in (0, 23)). -/
def ok23 (e : Int) : Bool := e == 0 || e == 23

/-- One invocation of the bulk-transfer utility, as the engine observes it:
exit code, captured standard output and error text, and the content the run
leaves in its destination tree, as a function of the current (source,
destination) contents. -/
structure RsyncRun where
  exitCode : Int
  stdoutText : Str
  stderrText : Str
  effect : FileMap → FileMap → FileMap

/-- Outcome of the git interactions inside _check_clean_target: ensure_repo
plus status() succeed yielding the porcelain status lines; or ensure_repo
raises its RuntimeError (not a git repository); or some other git command
raises a RuntimeError through check_ok; or a non-RuntimeError exception
(for example connectivity) occurs, which the method logs and skips. -/
inductive RepoCheck where
  | repo (statusLines : List Str)
  | notRepo
  | gitError (msg : Str)
  | unreachable

/-- The collaborators one SafeSyncService.sync call consults, in order:
the project scanner results (step 0), the git status of the target (step 1),
the checkpoint backup rsync run and the best-effort head commit capture
(step 2), the transfer rsync run (step 3) and the verification dry-run
(step 4).  The timestamp is time.strftime at checkpoint creation. -/
structure SyncOracle where
  scanExcludes : List Str
  scanComponents : List Str
  targetRepoCheck : RepoCheck
  timestamp : Str
  backupRun : RsyncRun
  headCommit : Option Str
  transferRun : RsyncRun
  verifyRun : RsyncRun

/-- The error text of the DirtyTargetError raised by _check_clean_target. -/
def dirtyTargetMessage (ctx : EnvContext) (lines : List Str) : Str :=
  ("目标 ".data) ++ ctx.display ++ (" 有未提交变更，请先处理：\n".data)
    ++ pyJoin ("\n".data) (lines.take 10)

/-- SafeSyncService._check_clean_target: raises on a dirty target
(status.dirty is bool(lines), the details are the first ten porcelain
lines); a RuntimeError from the git layer (including the not-a-repository
error of ensure_repo) is re-raised; any other exception is logged and the
check is skipped. -/
def check_clean_target (o : SyncOracle) (ctx : EnvContext) : Except Str Unit :=
  match o.targetRepoCheck with
  | RepoCheck.repo lines =>
    if lines.isEmpty then Except.ok ()
    else Except.error (dirtyTargetMessage ctx lines)
  | RepoCheck.notRepo =>
    Except.error (ctx.name ++ (": 路径不是 git 仓库: ".data) ++ ctx.entry.path)
  | RepoCheck.gitError msg => Except.error msg
  | RepoCheck.unreachable => Except.ok ()

/-- SafeSyncService._create_checkpoint: makes the backup directory
backup-ENV-TS (mkdir exist_ok keeps an existing one), runs
rsync -az RSYNC_EXCLUDES target backup/ (the backupRun of the oracle, whose
destination effect is applied to the backup directory), raises on a fatal
exit; on success best-effort captures the git head commit, then writes the
metadata file and returns the checkpoint.  The state is returned in every
case, since the directory creation and the transfer happen before the exit
code is checked. -/
def create_checkpoint (o : SyncOracle) (ctx : EnvContext) (st : WorldState) :
    Except Str SyncCheckpoint × WorldState :=
  let timestamp := o.timestamp
  let backup_dir := backupDirName ctx.name timestamp
  let base := (lookupBackup st.backups backup_dir).getD emptyFs
  let newContent := o.backupRun.effect st.target base
  let st1 : WorldState := { st with backups := setBackup st.backups backup_dir newContent }
  if !(ok23 o.backupRun.exitCode) then
    (Except.error (("备份失败: ".data) ++ o.backupRun.stderrText), st1)
  else
    let git_commit := o.headCommit
    let checkpoint : SyncCheckpoint :=
      { timestamp := timestamp, env_name := ctx.name,
        backup_path := backup_dir, git_commit := git_commit }
    (Except.ok checkpoint,
     { st1 with metaStore := writeMeta st1.metaStore ctx.name timestamp checkpoint })

/-- The statistics loop of _do_sync over proc.stdout.splitlines(): itemize
records (first character > or <) count as synced, *deleting lines as
deleted. -/
def parse_sync_stats : List Str → Nat × Nat
  | [] => (0, 0)
  | ln :: rest =>
    let (s, d) := parse_sync_stats rest
    if pyStarts ln (">".data) || pyStarts ln ("<".data) then (s + 1, d)
    else if pyStarts ln ("*deleting".data) then (s, d + 1)
    else (s, d)

/-- SafeSyncService._do_sync: runs the transfer (dry_run false, checksum per
strategy, delete, itemize), raises on a fatal exit with stderr-or-stdout in
the message, else returns the (synced, deleted) counts.  The destination
effect happens before the exit code is inspected. -/
def do_sync (o : SyncOracle) (st : WorldState) : Except Str (Nat × Nat) × WorldState :=
  let st1 := { st with target := o.transferRun.effect st.source st.target }
  if !(ok23 o.transferRun.exitCode) then
    (Except.error (("rsync 同步失败: ".data)
       ++ pyOr o.transferRun.stderrText o.transferRun.stdoutText), st1)
  else
    (Except.ok (parse_sync_stats (pySplitLines o.transferRun.stdoutText)), st1)

/-- SafeSyncService._verify_sync: a dry-run + checksum pass; false on a
fatal exit, else true exactly when no output line remains after dropping
blank lines and the building-file-list header. -/
def verify_sync (o : SyncOracle) : Bool :=
  if !(ok23 o.verifyRun.exitCode) then false
  else
    let diff_lines := (pySplitLines o.verifyRun.stdoutText).filter
      (fun ln => !(pyStrip ln).isEmpty && !pyStarts ln ("building".data))
    diff_lines.length == 0

/-- SyncResult from envsync/core/safe_sync.py. -/
structure SyncResult where
  success : Bool
  source : Str
  target : Str
  checkpoint : Option SyncCheckpoint := none
  files_synced : Nat := 0
  files_deleted : Nat := 0
  verified : Bool := false
  code_only : Bool := false
  components_synced : List Str := []
  error : Option Str := none
deriving DecidableEq

/-- The sync strategy: safe checks the target for uncommitted changes and
compares by checksum; force overwrites. -/
inductive Strategy where
  | safe
  | force
deriving DecidableEq

/-- SafeSyncService.sync, the orchestrating state machine.  The two _ctx
lookups raise (ValueError) outside the try block; everything after is
wrapped in try/except, so any step failure becomes a failed SyncResult
carrying the checkpoint reference accumulated so far.  Step 0 consults the
scanner (its results are oracle values); step 5 auto-commit only drives git
(stage and commit), changes no synced file, and swallows its own failures,
so it has no effect on the modelled state. -/
def sync (cfg : ConfigData) (o : SyncOracle) (st : WorldState)
    (source target : Str) (strategy : Strategy)
    (backup verify auto_commit code_only : Bool)
    (components : Option (List Str)) : Except Str (SyncResult × WorldState) :=
  match ctxOf cfg source, ctxOf cfg target with
  | Except.error e, _ => Except.error e
  | _, Except.error e => Except.error e
  | Except.ok _ctx_src, Except.ok ctx_dst =>
    let synced_components : List Str :=
      if code_only then
        match components with
        | some comps => o.scanComponents.filter (fun t => comps.contains t)
        | none => o.scanComponents
      else []
    Except.ok (
      match (if strategy = Strategy.safe then check_clean_target o ctx_dst
             else Except.ok ()) with
      | Except.error e =>
        ({ success := false, source := source, target := target,
           checkpoint := none, error := some e }, st)
      | Except.ok _ =>
        let afterBackup : Except Str (Option SyncCheckpoint) × WorldState :=
          if backup then
            match create_checkpoint o ctx_dst st with
            | (Except.ok cp, st1) => (Except.ok (some cp), st1)
            | (Except.error e, st1) => (Except.error e, st1)
          else (Except.ok none, st)
        match afterBackup with
        | (Except.error e, st1) =>
          ({ success := false, source := source, target := target,
             checkpoint := none, error := some e }, st1)
        | (Except.ok checkpoint, st1) =>
          match do_sync o st1 with
          | (Except.error e, st2) =>
            ({ success := false, source := source, target := target,
               checkpoint := checkpoint, error := some e }, st2)
          | (Except.ok (synced, deleted), st2) =>
            let verified := if verify then verify_sync o else false
            ({ success := true, source := source, target := target,
               checkpoint := checkpoint, files_synced := synced,
               files_deleted := deleted, verified := verified,
               code_only := code_only,
               components_synced := synced_components }, st2))

/-- The restore rsync invocation of rollback (rsync -az --delete
RSYNC_EXCLUDES backup/ target/): exit code, stderr, and the destination
effect given the backup directory content (none when the directory is
missing) and the current target content. -/
structure RollbackRun where
  exitCode : Int
  stderrText : Str
  effect : Option FileMap → FileMap → FileMap

/-- The best-effort git reset --hard invocation of rollback: whether
reset_hard succeeded (check_ok raised otherwise), and the working-tree
effect of a successful reset, which overwrites the tracked files with the
content of the captured revision.  A failing reset (bad revision, not a
repository) errors without touching the tree, so only the success case
carries an effect. -/
structure GitResetRun where
  ok : Bool
  effect : FileMap → FileMap

/-- The collaborators one rollback call consults: the restore run and the
best-effort git reset --hard run (whose failure is only logged). -/
structure RollbackOracle where
  restoreRun : RollbackRun
  gitReset : GitResetRun

/-- The git-restore step of rollback (safe_sync.py lines 226-232): when the
checkpoint carries a revision id (Python truthiness: neither None nor the
empty string) the reset runs; on success its working-tree effect applies to
the target, on failure only a warning is logged and the tree is left as the
restore transfer produced it. -/
def git_restore (o : RollbackOracle) (checkpoint : SyncCheckpoint)
    (st : WorldState) : WorldState :=
  match checkpoint.git_commit with
  | some c =>
    if !c.isEmpty && o.gitReset.ok then
      { st with target := o.gitReset.effect st.target }
    else st
  | none => st

/-- SafeSyncService.rollback.  The _ctx lookup runs before any try block,
so an unconfigured target name raises (ValueError) out of the method; after
that it returns a boolean: false when no checkpoint resolves, false when
the restore rsync exits fatally (the internal try/except), true otherwise;
then, with a captured revision, the best-effort hard reset applies its
working-tree effect on success, while its failure is only a warning. -/
def rollback (cfg : ConfigData) (o : RollbackOracle) (st : WorldState)
    (target : Str) (checkpoint_id : Option Str) :
    Except Str (Bool × WorldState) :=
  match ctxOf cfg target with
  | Except.error e => Except.error e
  | Except.ok _ctx =>
    match find_checkpoint st.metaStore target checkpoint_id with
    | none => Except.ok (false, st)
    | some checkpoint =>
      let st1 := { st with
        target := o.restoreRun.effect
          (lookupBackup st.backups checkpoint.backup_path) st.target }
      if !(ok23 o.restoreRun.exitCode) then Except.ok (false, st1)
      else Except.ok (true, git_restore o checkpoint st1)

/-- The classification loop of DiffService._rsync_diff over the itemized
dry-run output lines: blank lines are skipped; a *deleting line counts as
deleted (detail DEL plus the name after the ten-character marker); other
lines are split at the first space into itemize code and path, skipped when
the path is empty, and count as created when the code contains the
brand-new-file marker, else as modified.  Returns the detail lines (before
the two header lines are prepended) and (created, modified, deleted). -/
def rsync_diff_classify : List Str → List Str × (Nat × Nat × Nat)
  | [] => ([], (0, 0, 0))
  | ln :: rest =>
    let (ls, cmd) := rsync_diff_classify rest
    let (c, md) := cmd
    let (m, d) := md
    if (pyStrip ln).isEmpty then (ls, (c, m, d))
    else if pyStarts ln ("*deleting ".data) then
      ((("DEL ".data) ++ ln.drop 10) :: ls, (c, m, d + 1))
    else
      let (item, path) := pyPartitionSp ln
      if path.isEmpty then (ls, (c, m, d))
      else if pyIn ("+++++++++".data) item then
        ((("ADD ".data) ++ path) :: ls, (c + 1, m, d))
      else
        ((("MOD ".data) ++ path) :: ls, (c, m + 1, d))

/-- DiffService._rsync_diff: classification plus the header line and its
underline prepended to the detail lines. -/
def rsync_diff (srcDisplay dstDisplay : Str) (lines : List Str) :
    List Str × (Nat × Nat × Nat) :=
  let (detail, stats) := rsync_diff_classify lines
  let header := ("rsync dry-run diff ".data) ++ srcDisplay ++ (" -> ".data) ++ dstDisplay
  (header :: (List.replicate header.length '-') :: detail, stats)

/-- DiffReport from envsync/core/diff.py. -/
structure DiffReport where
  env1 : Str
  env2 : Str
  has_diff : Bool
  summary_lines : List Str
  output_path : Option Str := none

/-- DiffService.compare, given the itemized output lines of the dry-run
(the subprocess and the report file on disk are collaborators; the report
path is the timestamped name compare builds): has_diff is
any(v > 0 for v in stats) over (created, modified, deleted). -/
def DiffService.compare (env1 env2 : Str) (srcDisplay dstDisplay : Str)
    (lines : List Str) (report_file : Str) : DiffReport :=
  let (_, stats) := rsync_diff srcDisplay dstDisplay lines
  let has_diff := decide (0 < stats.1) || decide (0 < stats.2.1) || decide (0 < stats.2.2)
  { env1 := env1, env2 := env2, has_diff := has_diff,
    summary_lines :=
      [("新增: ".data) ++ Nat.toDigits 10 stats.1,
       ("修改: ".data) ++ Nat.toDigits 10 stats.2.1,
       ("删除: ".data) ++ Nat.toDigits 10 stats.2.2,
       ("报告: ".data) ++ report_file],
    output_path := some report_file }

/-- PROJECT_MARKERS from envsync/core/scanner.py, in its insertion order
(Python dict iteration preserves insertion order). -/
def PROJECT_MARKERS : List (Str × List Str) :=
  [(("python".data), [("requirements.txt".data), ("pyproject.toml".data),
      ("setup.py".data), ("Pipfile".data), ("poetry.lock".data)]),
   (("node".data), [("package.json".data), ("package-lock.json".data),
      ("yarn.lock".data), ("pnpm-lock.yaml".data)]),
   (("go".data), [("go.mod".data), ("go.sum".data)]),
   (("rust".data), [("Cargo.toml".data), ("Cargo.lock".data)]),
   (("java".data), [("pom.xml".data), ("build.gradle".data), ("build.gradle.kts".data)]),
   (("ruby".data), [("Gemfile".data), ("Gemfile.lock".data)]),
   (("php".data), [("composer.json".data), ("composer.lock".data)])]

/-- NON_CODE_DIRS from envsync/core/scanner.py (a Python set literal; only
membership is ever used, so the model keeps the written order with the
duplicate "target" collapsing as in a set). -/
def NON_CODE_DIRS : List Str :=
  [("__pycache__".data), (".pytest_cache".data), (".mypy_cache".data), (".ruff_cache".data),
   (".venv".data), ("venv".data), ("env".data), (".env".data), ("virtualenv".data),
   ("*.egg-info".data), ("dist".data), ("build".data), (".eggs".data), ("*.egg".data),
   (".tox".data), (".nox".data), ("htmlcov".data), (".coverage".data),
   ("node_modules".data), (".npm".data), (".yarn".data), (".pnpm-store".data),
   ("vendor".data),
   ("target".data),
   (".gradle".data), (".mvn".data),
   (".git".data), (".svn".data), (".hg".data),
   (".idea".data), (".vscode".data), ("*.swp".data),
   (".DS_Store".data), ("Thumbs.db".data),
   ("logs".data), ("log".data), ("tmp".data), ("temp".data), ("cache".data),
   (".envsync".data)]

/-- ProjectScanner._is_non_code_dir: hidden names, or any NON_CODE_DIRS
entry matched exactly or as a star-suffix pattern. -/
def is_non_code_dir (name : Str) : Bool :=
  if pyStarts name (".".data) then true
  else NON_CODE_DIRS.any (fun pattern =>
    if pyStarts pattern ("*".data) then pyEnds name (pattern.drop 1)
    else decide (name = pattern))

/-- ProjectComponent from envsync/core/scanner.py. -/
structure ProjectComponent where
  path : Str
  type : Str
  marker_files : List Str := []
  code_dirs : List Str := []
  non_code_dirs : List Str := []
deriving DecidableEq

/-- ProjectStructure from envsync/core/scanner.py; the two Python sets are
modelled as duplicate-free insertion lists. -/
structure ProjectStructure where
  root_path : Str
  env_name : Str
  components : List ProjectComponent := []
  all_code_dirs : List Str := []
  all_non_code_dirs : List Str := []
deriving DecidableEq

/-- set.add on the modelled sets. -/
def setAdd (s : List Str) (x : Str) : List Str :=
  if s.contains x then s else s ++ [x]

/-- An environment directory tree: the plain files and the subdirectories
of each directory. -/
inductive DirTree where
  | mk (files : List Str) (subdirs : List (Str × DirTree))

/-- The plain files of a directory. -/
def DirTree.files : DirTree → List Str
  | DirTree.mk fs _ => fs

/-- The subdirectories of a directory. -/
def DirTree.subdirs : DirTree → List (Str × DirTree)
  | DirTree.mk _ sd => sd

/-- The relative path of a child: Python builds REL/NAME and strips the
leading slash, so an empty parent path yields the bare name. -/
def joinRel (rel name : Str) : Str :=
  if rel.isEmpty then name else rel ++ ("/".data) ++ name

/-- PROJECT_MARKERS.get(proj_type, []). -/
def markersOf (proj_type : Str) : List Str :=
  (PROJECT_MARKERS.lookup proj_type).getD []

/-- The marker-detection double loop of _scan_directory: project kinds in
PROJECT_MARKERS order, each kind checking its marker files against the
directory; the first kind with a present marker wins. -/
def findMarkerType : List (Str × List Str) → List Str → Option Str
  | [], _ => none
  | (proj_type, markers) :: rest, files =>
    if markers.any (fun m => files.contains m) then some proj_type
    else findMarkerType rest files

/-- The depth-two directory listing of _analyze_component
(find PATH -maxdepth 2 -type d): for every child and grandchild, its name
and its path relative to the environment root, in depth-first order. -/
def depth2Entries (rel : Str) (t : DirTree) : List (Str × Str) :=
  t.subdirs.flatMap (fun e =>
    (e.1, joinRel rel e.1) ::
      e.2.subdirs.map (fun e2 => (e2.1, joinRel (joinRel rel e.1) e2.1)))

/-- ProjectScanner._analyze_component: records the present markers of the
detected kind, then classifies the depth-two subdirectories (head -50 keeps
the directory line itself plus the first forty-nine entries) into the
code and non-code directory lists of the component and into the
aggregated sets; finally a non-root component path joins the aggregated
code directories.  The find failure branch (result.code nonzero) is a
collaborator failure not modelled: the listing is given by the tree. -/
def analyze_component (t : DirTree) (rel_path proj_type : Str)
    (stru : ProjectStructure) : ProjectComponent × ProjectStructure :=
  let component : ProjectComponent :=
    { path := rel_path, type := proj_type,
      marker_files := (markersOf proj_type).filter (fun m => t.files.contains m) }
  let entries := (depth2Entries rel_path t).take 49
  let (component1, stru1) := entries.foldl
    (fun acc entry =>
      if is_non_code_dir entry.1 then
        ({ acc.1 with non_code_dirs := acc.1.non_code_dirs ++ [entry.1] },
         { acc.2 with all_non_code_dirs := setAdd acc.2.all_non_code_dirs entry.2 })
      else
        ({ acc.1 with code_dirs := acc.1.code_dirs ++ [entry.1] },
         { acc.2 with all_code_dirs := setAdd acc.2.all_code_dirs entry.2 }))
    (component, stru)
  if rel_path.isEmpty then (component1, stru1)
  else (component1, { stru1 with all_code_dirs := setAdd stru1.all_code_dirs rel_path })

/-- The subdirectory listing of _scan_directory
(find PATH -maxdepth 1 -type d -not -name hidden, piped through tail -20):
find prints the directory itself first and then its non-hidden
subdirectories; tail keeps the last twenty lines and the loop skips the
directory line, so all subdirectories are kept when at most nineteen
remain with the directory line inside the window, else the last twenty. -/
def listedSubdirs (subs : List (Str × DirTree)) : List (Str × DirTree) :=
  let visible := subs.filter (fun e => !pyStarts e.1 (".".data))
  if visible.length + 1 ≤ 20 then visible
  else visible.drop (visible.length - 20)

/-- ProjectScanner._scan_directory.  fuel is 6 - depth: the source returns
when depth exceeds 5 and recurses with depth + 1, so the root call has fuel
6 and fuel 0 is the cut-off.  On a marker match the directory becomes a
component (appended after _analyze_component) and the walk does not descend;
otherwise the subdirectory loop runs: each listed subdirectory is either
recorded as non-code (deny list and hidden names) or recursed into with one
unit of fuel less. -/
def scan_directory (fuel : Nat) (t : DirTree) (rel_path : Str)
    (stru : ProjectStructure) : ProjectStructure :=
  match fuel with
  | 0 => stru
  | f + 1 =>
    match findMarkerType PROJECT_MARKERS t.files with
    | some proj_type =>
      let (component, stru1) := analyze_component t rel_path proj_type stru
      { stru1 with components := stru1.components ++ [component] }
    | none =>
      (listedSubdirs t.subdirs).foldl
        (fun acc e =>
          if is_non_code_dir e.1 then
            { acc with all_non_code_dirs := setAdd acc.all_non_code_dirs (joinRel rel_path e.1) }
          else scan_directory f e.2 (joinRel rel_path e.1) acc)
        stru

/-- ENCRYPTED_PREFIX from envsync/utils/crypto.py: the versioned marker put
before ciphertext. -/
def ENCRYPTED_MARK : Str := "enc:v1:".data

/-- The external cryptography pipeline of SecretManager: enc is
base64.urlsafe_b64encode(fernet.encrypt(utf8 bytes)) decoded to text, dec
the reverse pipeline, none on any failure.  The Fernet library and base64
are collaborators outside this repository; their documented round trip is a
hypothesis of the theorems using them. -/
structure SecretBackend where
  enc : Str → Str
  dec : Str → Option Str

/-- SecretManager.encrypt: empty text passes through, otherwise the marker
plus the encoded ciphertext. -/
def encrypt (B : SecretBackend) (plaintext : Str) : Str :=
  if plaintext.isEmpty then []
  else ENCRYPTED_MARK ++ B.enc plaintext

/-- SecretManager.decrypt: empty text passes through; a leading marker is
stripped; any backend failure raises the decryption RuntimeError. -/
def decrypt (B : SecretBackend) (ciphertext : Str) : Except Str Str :=
  if ciphertext.isEmpty then Except.ok []
  else
    let c := if pyStarts ciphertext ENCRYPTED_MARK
             then ciphertext.drop ENCRYPTED_MARK.length else ciphertext
    match B.dec c with
    | some p => Except.ok p
    | none => Except.error ("解密失败，密钥可能已变更或数据损坏".data)

/-- SecretManager.is_encrypted: empty is not encrypted; the marker means
encrypted; the legacy heuristic rejects XML-like or URL-like text, then asks
the base64 validity collaborator b64ok (urlsafe_b64decode succeeding) and
requires more than fifty characters with a padding sign among the last
four. -/
def is_encrypted (b64ok : Str → Bool) (text : Str) : Bool :=
  if text.isEmpty then false
  else if pyStarts text ENCRYPTED_MARK then true
  else if pyStarts text ("<".data) || pyIn ("://".data) (text.take 10) then false
  else if b64ok text then decide (text.length > 50) && (text.drop (text.length - 4)).contains '='
  else false

/-
Theorems.
-/

/-- A line that the diff loop treats as an itemize record: not blank, not a
deletion marker, and carrying a path after the first space. -/
def isDiffRecord (ln : Str) : Bool :=
  !(pyStrip ln).isEmpty && !pyStarts ln ("*deleting ".data)
    && !(pyPartitionSp ln).2.isEmpty

/-- C7: over every itemized dry-run output, the diff engine counts exactly
the *deleting lines as deleted, the itemize records whose code contains the
brand-new-file marker as created, every other itemize record as modified;
and the has_diff flag of the report is true exactly when one of the three counts
is nonzero. -/
theorem C7_diff_counts_and_has_diff (lines : List Str) :
    (rsync_diff_classify lines).2
      = (lines.countP (fun ln => isDiffRecord ln && pyIn ("+++++++++".data) (pyPartitionSp ln).1),
         lines.countP (fun ln => isDiffRecord ln && !pyIn ("+++++++++".data) (pyPartitionSp ln).1),
         lines.countP (fun ln => !(pyStrip ln).isEmpty && pyStarts ln ("*deleting ".data)))
    ∧ (∀ e1 e2 sd dd rf,
        (DiffService.compare e1 e2 sd dd lines rf).has_diff = true ↔
          ((rsync_diff_classify lines).2.1 ≠ 0 ∨ (rsync_diff_classify lines).2.2.1 ≠ 0
            ∨ (rsync_diff_classify lines).2.2.2 ≠ 0)) := by
  constructor
  · induction lines with
    | nil => simp [rsync_diff_classify]
    | cons ln rest ih =>
      rcases hres : rsync_diff_classify rest with ⟨ls, c, m, d⟩
      rw [hres] at ih
      simp only [Prod.mk.injEq] at ih
      obtain ⟨ih1, ih2, ih3⟩ := ih
      subst ih1
      subst ih2
      subst ih3
      simp only [rsync_diff_classify, hres, List.countP_cons, isDiffRecord]
      by_cases h1 : (pyStrip ln).isEmpty
      · simp [h1]
      · by_cases h2 : pyStarts ln ("*deleting ".data)
        · simp [h1, h2]
        · by_cases h3 : (pyPartitionSp ln).2.isEmpty
          · simp [h1, h2, h3]
          · by_cases h4 : pyIn ("+++++++++".data) (pyPartitionSp ln).1
            · simp [h1, h2, h3, h4]
            · simp [h1, h2, h3, h4]
  · intro e1 e2 sd dd rf
    rcases hres : rsync_diff_classify lines with ⟨ls, c, m, d⟩
    simp [DiffService.compare, rsync_diff, hres, Nat.pos_iff_ne_zero, or_assoc]

/-- A fold step that leaves a projection unchanged leaves it unchanged over
the whole fold. -/
theorem foldl_preserve {α β γ : Type _} (f : β → α → β) (g : β → γ)
    (h : ∀ b a, g (f b a) = g b) (l : List α) (b : β) : g (l.foldl f b) = g b := by
  induction l generalizing b with
  | nil => rfl
  | cons x xs ih => rw [List.foldl_cons, ih, h]

/-- _analyze_component never adds or removes components. -/
theorem analyze_component_components (t : DirTree) (rel ty : Str)
    (stru : ProjectStructure) :
    (analyze_component t rel ty stru).2.components = stru.components := by
  unfold analyze_component
  have h := foldl_preserve
    (fun (acc : ProjectComponent × ProjectStructure) entry =>
      if is_non_code_dir entry.1 then
        ({ acc.1 with non_code_dirs := acc.1.non_code_dirs ++ [entry.1] },
         { acc.2 with all_non_code_dirs := setAdd acc.2.all_non_code_dirs entry.2 })
      else
        ({ acc.1 with code_dirs := acc.1.code_dirs ++ [entry.1] },
         { acc.2 with all_code_dirs := setAdd acc.2.all_code_dirs entry.2 }))
    (fun acc => acc.2.components)
    (by
      intro b a
      by_cases hc : is_non_code_dir a.1 <;> simp [hc])
    ((depth2Entries rel t).take 49)
  simp only at h ⊢
  split <;> simp [h]

/-- The component built by _analyze_component carries the detected kind. -/
theorem analyze_component_type (t : DirTree) (rel ty : Str)
    (stru : ProjectStructure) :
    (analyze_component t rel ty stru).1.type = ty := by
  unfold analyze_component
  have h := foldl_preserve
    (fun (acc : ProjectComponent × ProjectStructure) entry =>
      if is_non_code_dir entry.1 then
        ({ acc.1 with non_code_dirs := acc.1.non_code_dirs ++ [entry.1] },
         { acc.2 with all_non_code_dirs := setAdd acc.2.all_non_code_dirs entry.2 })
      else
        ({ acc.1 with code_dirs := acc.1.code_dirs ++ [entry.1] },
         { acc.2 with all_code_dirs := setAdd acc.2.all_code_dirs entry.2 }))
    (fun acc => acc.1.type)
    (by
      intro b a
      by_cases hc : is_non_code_dir a.1 <;> simp [hc])
    ((depth2Entries rel t).take 49)
  simp only at h ⊢
  split <;> simp [h]

/-- The marker double loop returns the first listed kind with a present
marker file. -/
theorem findMarkerType_eq_find (L : List (Str × List Str)) (files : List Str) :
    findMarkerType L files
      = (L.find? (fun pr => pr.2.any (fun m => files.contains m))).map Prod.fst := by
  induction L with
  | nil => rfl
  | cons hd tl ih =>
    obtain ⟨ty, markers⟩ := hd
    unfold findMarkerType
    rw [List.find?_cons]
    cases h : markers.any (fun m => files.contains m)
    · simp only [h, Bool.false_eq_true, if_false, ih]
    · simp [h]

/-- C8: project kinds are checked in the fixed order python, node, go,
rust, java, ruby, php; the first kind with a present marker file becomes
the type of the component; a matched directory is recorded as exactly one new
component and the scanner does not recurse into it for further component
discovery. -/
theorem C8_first_marker_wins_no_recursion (files : List Str)
    (subs : List (Str × DirTree)) (rel : Str) (stru : ProjectStructure)
    (fuel : Nat) (ty : Str)
    (h : findMarkerType PROJECT_MARKERS files = some ty) :
    PROJECT_MARKERS.map Prod.fst
        = [("python".data), ("node".data), ("go".data), ("rust".data),
           ("java".data), ("ruby".data), ("php".data)]
    ∧ (∀ fs, findMarkerType PROJECT_MARKERS fs
          = (PROJECT_MARKERS.find? (fun pr => pr.2.any (fun m => fs.contains m))).map Prod.fst)
    ∧ (scan_directory (fuel + 1) (DirTree.mk files subs) rel stru).components
        = stru.components ++ [(analyze_component (DirTree.mk files subs) rel ty stru).1]
    ∧ (analyze_component (DirTree.mk files subs) rel ty stru).1.type = ty := by
  refine ⟨by decide, fun fs => findMarkerType_eq_find _ fs, ?_, analyze_component_type _ _ _ _⟩
  rcases ha : analyze_component (DirTree.mk files subs) rel ty stru with ⟨comp, stru1⟩
  have hcomps := analyze_component_components (DirTree.mk files subs) rel ty stru
  rw [ha] at hcomps
  simp only at hcomps
  simp [scan_directory, DirTree.files, h, ha, hcomps]

/-- Witness for C8 at a directory holding go.mod. -/
theorem C8_witness :
    findMarkerType PROJECT_MARKERS [("go.mod".data)] = some ("go".data)
    ∧ (scan_directory 6 (DirTree.mk [("go.mod".data)] []) []
        { root_path := [], env_name := [] }).components
      = ({ root_path := [], env_name := [] } : ProjectStructure).components
        ++ [(analyze_component (DirTree.mk [("go.mod".data)] []) [] ("go".data)
              { root_path := [], env_name := [] }).1] :=
  ⟨by decide,
   (C8_first_marker_wins_no_recursion [("go.mod".data)] [] []
      { root_path := [], env_name := [] } 5 ("go".data) (by decide)).2.2.1⟩

/-- A string starts with any of its own leading segments. -/
theorem pyStarts_append (p s : Str) : pyStarts (p ++ s) p = true := by
  simp [pyStarts, List.isPrefixOf_iff_prefix, List.prefix_append]

/-- The marker-prefixed ciphertext is never the empty string. -/
theorem mark_append_ne_nil (x : Str) : (ENCRYPTED_MARK ++ x).isEmpty = false := by
  have hm : (ENCRYPTED_MARK : Str) ≠ [] := by decide
  cases hmk : (ENCRYPTED_MARK : Str) with
  | nil => exact absurd hmk hm
  | cons c cs => simp

/-- C9 (amended): decrypt inverts encrypt for every plaintext; is_encrypted
accepts encrypt output for every nonempty plaintext (the empty plaintext
maps to the empty string, which is_encrypted rejects); and is_encrypted
rejects every short unprefixed string, whatever the base64 collaborator
answers.  The cryptography pipeline (Fernet plus base64) is external to the
repository; its documented round trip is the hround hypothesis. -/
theorem C9_secret_roundtrip (B : SecretBackend) (b64ok : Str → Bool) (p t : Str)
    (hround : ∀ x, B.dec (B.enc x) = some x)
    (hp : p ≠ []) (ht1 : pyStarts t ENCRYPTED_MARK = false) (ht2 : t.length ≤ 50) :
    (∀ q, decrypt B (encrypt B q) = Except.ok q)
    ∧ is_encrypted b64ok (encrypt B p) = true
    ∧ is_encrypted b64ok t = false := by
  refine ⟨fun q => ?_, ?_, ?_⟩
  · by_cases hq : q.isEmpty
    · have hqe : q = [] := by
        cases q with
        | nil => rfl
        | cons c cs => simp at hq
      subst hqe
      simp [encrypt, decrypt]
    · simp only [encrypt, hq, if_false, Bool.false_eq_true]
      simp only [decrypt, mark_append_ne_nil, Bool.false_eq_true, if_false,
        pyStarts_append, if_true]
      rw [List.drop_left, hround]
  · simp only [encrypt]
    have hpe : p.isEmpty = false := by
      cases p with
      | nil => exact absurd rfl hp
      | cons c cs => rfl
    simp only [hpe, Bool.false_eq_true, if_false]
    simp only [is_encrypted, mark_append_ne_nil, Bool.false_eq_true, if_false,
      pyStarts_append, if_true]
  · by_cases h0 : t.isEmpty
    · simp [is_encrypted, h0]
    · simp only [is_encrypted, h0, Bool.false_eq_true, if_false, ht1]
      by_cases h3 : (pyStarts t ("<".data) || pyIn ("://".data) (t.take 10)) = true
      · simp [h3]
      · simp only [h3]
        have hlen : ¬ (t.length > 50) := by omega
        by_cases h4 : b64ok t = true <;> simp [h4, hlen]

/-- C9 counterexample: for the empty plaintext, encrypt returns the empty
string and is_encrypted answers false, refuting the claim that
is_encrypted accepts encrypt output for every plaintext (shown with the
identity pipeline; encrypt short-circuits before the backend runs). -/
theorem C9_counterexample :
    is_encrypted (fun _ => true)
      (encrypt ⟨fun s => s, fun s => some s⟩ []) = false := by decide

/-- Witness for C9 at a concrete backend, plaintext and short string. -/
theorem C9_witness :
    (∀ q, decrypt ⟨fun s => s, fun s => some s⟩
        (encrypt ⟨fun s => s, fun s => some s⟩ q) = Except.ok q)
    ∧ is_encrypted (fun _ => true)
        (encrypt ⟨fun s => s, fun s => some s⟩ ("token".data)) = true
    ∧ is_encrypted (fun _ => true) ("hello".data) = false :=
  C9_secret_roundtrip ⟨fun s => s, fun s => some s⟩ (fun _ => true)
    ("token".data) ("hello".data) (fun _ => rfl) (by decide) (by decide) (by decide)

/-- A concrete environment entry used by the witnesses. -/
def entDemo : EnvEntry := { name := ("a".data), type := ("native".data), path := ("/p".data) }

/-- A concrete registry with two local environments, used by the witnesses. -/
def cfgDemo : ConfigData := ⟨[(("a".data), entDemo), (("b".data), entDemo)]⟩

/-- A transfer run that succeeds, produces no output and leaves the
destination unchanged, used by the witnesses. -/
def runDemo : RsyncRun := ⟨0, [], [], fun _ d => d⟩

/-- An empty world, used by the witnesses. -/
def stDemo : WorldState := ⟨emptyFs, emptyFs, [], []⟩

/-- A benign oracle for sync, used by the witnesses. -/
def oracleDemo : SyncOracle :=
  { scanExcludes := [], scanComponents := [],
    targetRepoCheck := RepoCheck.repo [], timestamp := ("20240101-000000".data),
    backupRun := runDemo, headCommit := none,
    transferRun := runDemo, verifyRun := runDemo }

/-- C1: under strategy safe, a version-controlled target with at least one
uncommitted change makes sync return a failed result carrying the
DirtyTargetError text, with no checkpoint reference and the world state
(target files, backups, checkpoint records) untouched. -/
theorem C1_safe_dirty_target_aborts (cfg : ConfigData) (o : SyncOracle)
    (st : WorldState) (source target : Str)
    (backup verify auto_commit code_only : Bool) (components : Option (List Str))
    (cs ct : EnvContext) (lines : List Str)
    (hsrc : ctxOf cfg source = Except.ok cs) (htgt : ctxOf cfg target = Except.ok ct)
    (hrepo : o.targetRepoCheck = RepoCheck.repo lines) (hdirty : lines ≠ []) :
    sync cfg o st source target Strategy.safe backup verify auto_commit code_only components
      = Except.ok
          ({ success := false, source := source, target := target, checkpoint := none,
             error := some (dirtyTargetMessage ct lines) }, st) := by
  have hle : lines.isEmpty = false := by
    cases lines with
    | nil => exact absurd rfl hdirty
    | cons a l => rfl
  unfold sync
  rw [hsrc, htgt]
  simp [check_clean_target, hrepo, hle]

/-- Witness for C1 at a concrete dirty target. -/
theorem C1_witness :
    sync cfgDemo { oracleDemo with targetRepoCheck := RepoCheck.repo [("?? f".data)] }
      stDemo ("a".data) ("b".data) Strategy.safe true true false false none
    = Except.ok
        ({ success := false, source := ("a".data), target := ("b".data), checkpoint := none,
           error := some (dirtyTargetMessage ⟨("b".data), entDemo⟩ [("?? f".data)]) }, stDemo) :=
  C1_safe_dirty_target_aborts cfgDemo _ stDemo ("a".data) ("b".data)
    true true false false none ⟨("a".data), entDemo⟩ ⟨("b".data), entDemo⟩
    [("?? f".data)] rfl rfl rfl (by decide)

/-- C4: when the transfer completes without a fatal exit and the dry-run
verification pass leaves any line beyond the informational header, sync
reports verified false while success stays true, for any strategy whose
dirty check passes, with or without a backup step. -/
theorem C4_verify_mismatch_keeps_success (cfg : ConfigData) (o : SyncOracle)
    (st : WorldState) (source target : Str) (strategy : Strategy)
    (backup auto_commit code_only : Bool) (components : Option (List Str))
    (cs ct : EnvContext)
    (hsrc : ctxOf cfg source = Except.ok cs) (htgt : ctxOf cfg target = Except.ok ct)
    (hclean : strategy = Strategy.force ∨ check_clean_target o ct = Except.ok ())
    (hb : backup = false ∨ ok23 o.backupRun.exitCode = true)
    (htr : ok23 o.transferRun.exitCode = true)
    (hmis : ((pySplitLines o.verifyRun.stdoutText).filter
        (fun ln => !(pyStrip ln).isEmpty && !pyStarts ln ("building".data))) ≠ []) :
    ∃ r st2,
      sync cfg o st source target strategy backup true auto_commit code_only components
        = Except.ok (r, st2) ∧ r.success = true ∧ r.verified = false := by
  have hver : verify_sync o = false := by
    unfold verify_sync
    by_cases he : ok23 o.verifyRun.exitCode = true
    · rw [he]
      cases hf : (pySplitLines o.verifyRun.stdoutText).filter
          (fun ln => !(pyStrip ln).isEmpty && !pyStarts ln ("building".data)) with
      | nil => exact absurd hf hmis
      | cons a l => simp
    · have h0 : ok23 o.verifyRun.exitCode = false := by
        cases h2 : ok23 o.verifyRun.exitCode
        · rfl
        · exact absurd h2 he
      simp [h0]
  have hcheck : (if strategy = Strategy.safe then check_clean_target o ct
      else Except.ok ()) = Except.ok () := by
    rcases hclean with hf | hok
    · subst hf
      simp
    · by_cases hs : strategy = Strategy.safe
      · simp [hs, hok]
      · simp [hs]
  rcases hps : parse_sync_stats (pySplitLines o.transferRun.stdoutText) with ⟨sy, de⟩
  have hdo : ∀ s, do_sync o s
      = (Except.ok (sy, de), { s with target := o.transferRun.effect s.source s.target }) := by
    intro s
    unfold do_sync
    rw [htr, hps]
    rfl
  unfold sync
  rw [hsrc, htgt]
  simp only [hcheck]
  by_cases hbv : backup = true
  · have hb23 : ok23 o.backupRun.exitCode = true := by
      rcases hb with h0 | h23
      · rw [hbv] at h0
        exact absurd h0 (by decide)
      · exact h23
    obtain ⟨cp, st1, hcc⟩ : ∃ cp st1,
        create_checkpoint o ct st = (Except.ok cp, st1) := by
      unfold create_checkpoint
      rw [hb23]
      exact ⟨_, _, rfl⟩
    rw [hbv]
    simp only [if_true, hcc, hdo, hver]
    exact ⟨_, _, rfl, rfl, rfl⟩
  · have hb0 : backup = false := by
      cases hbb : backup
      · rfl
      · exact absurd hbb hbv
    rw [hb0]
    simp only [Bool.false_eq_true, if_false, hdo, hver]
    exact ⟨_, _, rfl, rfl, rfl⟩

/-- Witness for C4 at a concrete mismatching verification pass. -/
theorem C4_witness :
    ∃ r st2,
      sync cfgDemo { oracleDemo with verifyRun := ⟨0, (">f..t...... x\n".data), [], fun _ d => d⟩ }
          stDemo ("a".data) ("b".data) Strategy.safe true true false false none
        = Except.ok (r, st2) ∧ r.success = true ∧ r.verified = false :=
  C4_verify_mismatch_keeps_success cfgDemo _ stDemo ("a".data) ("b".data)
    Strategy.safe true false false none ⟨("a".data), entDemo⟩ ⟨("b".data), entDemo⟩
    rfl rfl (Or.inr rfl) (Or.inr rfl) rfl (by decide)

/-- C3: when the checkpoint step succeeds and the transfer exits fatally,
sync returns a failed result that still carries the created checkpoint and
the transfer error text; the final state is exactly the post-checkpoint
state with the transfer effect applied to the original target - no
compensating rollback runs - and the checkpoint metadata record is
retained. -/
theorem C3_transfer_failure_keeps_checkpoint (cfg : ConfigData) (o : SyncOracle)
    (st : WorldState) (source target : Str) (strategy : Strategy)
    (verify auto_commit code_only : Bool) (components : Option (List Str))
    (cs ct : EnvContext)
    (hsrc : ctxOf cfg source = Except.ok cs) (htgt : ctxOf cfg target = Except.ok ct)
    (hclean : strategy = Strategy.force ∨ check_clean_target o ct = Except.ok ())
    (hb23 : ok23 o.backupRun.exitCode = true)
    (htr : ok23 o.transferRun.exitCode = false) :
    ∃ cp st1,
      create_checkpoint o ct st = (Except.ok cp, st1)
      ∧ sync cfg o st source target strategy true verify auto_commit code_only components
          = Except.ok
              ({ success := false, source := source, target := target,
                 checkpoint := some cp,
                 error := some (("rsync 同步失败: ".data)
                   ++ pyOr o.transferRun.stderrText o.transferRun.stdoutText) },
               { st1 with target := o.transferRun.effect st1.source st1.target })
      ∧ MetaFile.mk ct.name o.timestamp (some cp) ∈ st1.metaStore
      ∧ st1.source = st.source ∧ st1.target = st.target := by
  have hcheck : (if strategy = Strategy.safe then check_clean_target o ct
      else Except.ok ()) = Except.ok () := by
    rcases hclean with hf | hok
    · subst hf
      simp
    · by_cases hs : strategy = Strategy.safe
      · simp [hs, hok]
      · simp [hs]
  have hcc : create_checkpoint o ct st
      = (Except.ok { timestamp := o.timestamp, env_name := ct.name,
                     backup_path := backupDirName ct.name o.timestamp,
                     git_commit := o.headCommit },
         { st with
           backups := setBackup st.backups (backupDirName ct.name o.timestamp)
             (o.backupRun.effect st.target
               ((lookupBackup st.backups (backupDirName ct.name o.timestamp)).getD emptyFs)),
           metaStore := writeMeta st.metaStore ct.name o.timestamp
             { timestamp := o.timestamp, env_name := ct.name,
               backup_path := backupDirName ct.name o.timestamp,
               git_commit := o.headCommit } }) := by
    unfold create_checkpoint
    rw [hb23]
    rfl
  refine ⟨_, _, hcc, ?_, ?_, rfl, rfl⟩
  · unfold sync
    rw [hsrc, htgt]
    simp only [hcheck, hcc, if_true, do_sync, htr]
    rfl
  · simp [writeMeta]

/-- Witness for C3 at a concrete fatal transfer. -/
theorem C3_witness :
    ∃ cp st1,
      create_checkpoint { oracleDemo with transferRun := ⟨12, ("out".data), ("err".data), fun _ d => d⟩ }
          ⟨("b".data), entDemo⟩ stDemo = (Except.ok cp, st1)
      ∧ sync cfgDemo { oracleDemo with transferRun := ⟨12, ("out".data), ("err".data), fun _ d => d⟩ }
          stDemo ("a".data) ("b".data) Strategy.safe true true false false none
          = Except.ok
              ({ success := false, source := ("a".data), target := ("b".data),
                 checkpoint := some cp,
                 error := some (("rsync 同步失败: ".data)
                   ++ pyOr ("err".data) ("out".data)) },
               { st1 with target := st1.target })
      ∧ MetaFile.mk ("b".data) ("20240101-000000".data) (some cp) ∈ st1.metaStore
      ∧ st1.source = stDemo.source ∧ st1.target = stDemo.target :=
  C3_transfer_failure_keeps_checkpoint cfgDemo _ stDemo ("a".data) ("b".data)
    Strategy.safe true false false none ⟨("a".data), entDemo⟩ ⟨("b".data), entDemo⟩
    rfl rfl (Or.inr rfl) rfl rfl

/-- C5 counterexample: for a target name that is not configured, rollback
raises the unconfigured-environment ValueError out of its boundary instead
of returning a boolean, refuting the claim for arbitrary target names. -/
theorem C5_counterexample :
    rollback ⟨[]⟩ ⟨⟨0, [], fun _ d => d⟩, ⟨true, fun t => t⟩⟩ stDemo
      ("prod".data) none = Except.error ("环境未配置: prod".data) := rfl

/-- C5 (amended): for every configured target name and optional checkpoint
id, rollback returns a boolean and never throws: false when no checkpoint
resolves (with the state untouched), and otherwise exactly the non-fatal
flag of the restore run - so a fatal restore exit yields false rather than
an exception - while the best-effort git reset run never influences the
returned value (its only footprint is the working-tree effect of a
successful reset). -/
theorem C5_rollback_returns_bool (cfg : ConfigData) (o : RollbackOracle)
    (st : WorldState) (target : Str) (checkpoint_id : Option Str) (c : EnvContext)
    (hc : ctxOf cfg target = Except.ok c) :
    ∃ b st1, rollback cfg o st target checkpoint_id = Except.ok (b, st1)
      ∧ (find_checkpoint st.metaStore target checkpoint_id = none →
          b = false ∧ st1 = st)
      ∧ (∀ cp, find_checkpoint st.metaStore target checkpoint_id = some cp →
          b = ok23 o.restoreRun.exitCode)
      ∧ (∀ g, (rollback cfg { o with gitReset := g } st target checkpoint_id).map
            Prod.fst
          = (rollback cfg o st target checkpoint_id).map Prod.fst) := by
  have hg : ∀ g, (rollback cfg { o with gitReset := g } st target checkpoint_id).map
        Prod.fst
      = (rollback cfg o st target checkpoint_id).map Prod.fst := by
    intro g
    unfold rollback
    dsimp only
    cases ctxOf cfg target with
    | error e => rfl
    | ok c2 =>
      cases find_checkpoint st.metaStore target checkpoint_id with
      | none => rfl
      | some cp2 =>
        cases h2 : ok23 o.restoreRun.exitCode <;> rfl
  suffices h : ∃ b st1, rollback cfg o st target checkpoint_id = Except.ok (b, st1)
      ∧ (find_checkpoint st.metaStore target checkpoint_id = none →
          b = false ∧ st1 = st)
      ∧ (∀ cp, find_checkpoint st.metaStore target checkpoint_id = some cp →
          b = ok23 o.restoreRun.exitCode) by
    obtain ⟨b, st1, h1, h2, h3⟩ := h
    exact ⟨b, st1, h1, h2, h3, hg⟩
  unfold rollback
  rw [hc]
  cases hf : find_checkpoint st.metaStore target checkpoint_id with
  | none =>
    exact ⟨false, st, rfl, fun _ => ⟨rfl, rfl⟩,
      fun cp hcp => Option.noConfusion hcp⟩
  | some cp =>
    cases hres : ok23 o.restoreRun.exitCode with
    | false =>
      exact ⟨false, _, rfl, fun h0 => Option.noConfusion h0, fun cp2 _ => rfl⟩
    | true =>
      exact ⟨true, _, rfl, fun h0 => Option.noConfusion h0, fun cp2 _ => rfl⟩

/-- Witness for C5 at a configured target with no checkpoints. -/
theorem C5_witness :
    ∃ b st1, rollback cfgDemo ⟨⟨0, [], fun _ d => d⟩, ⟨true, fun t => t⟩⟩ stDemo
      ("b".data) none = Except.ok (b, st1) := by
  obtain ⟨b, st1, h, _⟩ := C5_rollback_returns_bool cfgDemo
    ⟨⟨0, [], fun _ d => d⟩, ⟨true, fun t => t⟩⟩ stDemo ("b".data) none
    ⟨("b".data), entDemo⟩ rfl
  exact ⟨b, st1, h⟩

/-- Python string comparison is total. -/
theorem pyLe_total (a b : Str) : pyLe a b = true ∨ pyLe b a = true := by
  induction a generalizing b with
  | nil => exact Or.inl rfl
  | cons x as ih =>
    cases b with
    | nil => exact Or.inr rfl
    | cons y bs =>
      by_cases hxy : x = y
      · subst hxy
        rcases ih bs with h | h
        · exact Or.inl (by simp [pyLe, h])
        · exact Or.inr (by simp [pyLe, h])
      · rcases lt_or_gt_of_ne hxy with h | h
        · exact Or.inl (by simp [pyLe, hxy, h])
        · refine Or.inr (by simp [pyLe, Ne.symm hxy, h])

/-- Python string comparison is transitive. -/
theorem pyLe_trans (a b c : Str) (h1 : pyLe a b = true) (h2 : pyLe b c = true) :
    pyLe a c = true := by
  induction a generalizing b c with
  | nil => rfl
  | cons x as ih =>
    cases b with
    | nil => simp [pyLe] at h1
    | cons y bs =>
      cases c with
      | nil => simp [pyLe] at h2
      | cons z cs =>
        by_cases hxy : x = y
        · subst hxy
          by_cases hyz : x = z
          · subst hyz
            simp only [pyLe, if_pos rfl] at h1 h2 ⊢
            exact ih bs cs h1 h2
          · simp only [pyLe, if_neg hyz] at h2 ⊢
            exact h2
        · by_cases hyz : y = z
          · subst hyz
            simp only [pyLe, if_neg hxy] at h1 ⊢
            exact h1
          · simp only [pyLe, if_neg hxy, if_neg hyz, decide_eq_true_eq] at h1 h2
            have hxz : x < z := lt_trans h1 h2
            simp [pyLe, ne_of_lt hxz, hxz]

instance : IsTotal SyncCheckpoint tsGe :=
  ⟨fun a b => pyLe_total b.timestamp a.timestamp⟩

instance : IsTrans SyncCheckpoint tsGe :=
  ⟨fun a b c h1 h2 => pyLe_trans c.timestamp b.timestamp a.timestamp h2 h1⟩

/-- C10: list_checkpoints is total (it cannot raise in the model): it keeps
exactly the metadata files matching the environment glob whose contents
parse - every unparseable file is skipped - and returns them sorted by
timestamp descending. -/
theorem C10_list_skips_invalid_and_sorts (store : List MetaFile) (env : Str) :
    List.Perm (list_checkpoints store env)
        ((store.filter (fun m => m.fenv == env)).filterMap (fun m => m.parsed))
    ∧ (list_checkpoints store env).Pairwise
        (fun a b => pyLe b.timestamp a.timestamp = true) := by
  constructor
  · exact List.perm_insertionSort tsGe _
  · exact List.sorted_insertionSort tsGe
      ((store.filter (fun m => m.fenv == env)).filterMap (fun m => m.parsed))

/-- find? returns the unique element satisfying the predicate. -/
theorem find_unique {α : Type _} {l : List α} {p : α → Bool} {a : α}
    (ha : a ∈ l) (hp : p a = true) (huniq : ∀ x ∈ l, p x = true → x = a) :
    l.find? p = some a := by
  induction l with
  | nil => cases ha
  | cons x xs ih =>
    by_cases hx : p x = true
    · have hxa : x = a := huniq x (List.mem_cons_self x xs) hx
      subst hxa
      simp [List.find?_cons, hx]
    · have hx0 : p x = false := by
        cases h : p x
        · rfl
        · exact absurd h hx
      rw [List.find?_cons, hx0]
      have hamem : a ∈ xs := by
        rcases List.mem_cons.mp ha with h | h
        · subst h
          exact absurd hp hx
        · exact h
      exact ih hamem (fun y hy hpy => huniq y (List.mem_cons_of_mem x hy) hpy)

/-- After _create_checkpoint writes its metadata file, searching the listed
checkpoints of a well-formed store for the fresh timestamp finds exactly
the checkpoint just written (the overwritten filename slot is gone, and
every other matching file carries a different timestamp). -/
theorem list_checkpoints_writeMeta_find (store : List MetaFile) (env ts : Str)
    (cp : SyncCheckpoint) (hcp : cp.timestamp = ts)
    (hwf : ∀ m ∈ store, m.fenv = env →
      (m.parsed.all fun c => c.timestamp == m.fts) = true) :
    (list_checkpoints (writeMeta store env ts cp) env).find?
        (fun x => x.timestamp == ts) = some cp := by
  have hperm := List.perm_insertionSort tsGe
    (((writeMeta store env ts cp).filter (fun m => m.fenv == env)).filterMap
      (fun m => m.parsed))
  apply find_unique
  · show cp ∈ list_checkpoints (writeMeta store env ts cp) env
    apply hperm.mem_iff.mpr
    apply List.mem_filterMap.mpr
    refine ⟨⟨env, ts, some cp⟩, ?_, rfl⟩
    apply List.mem_filter.mpr
    refine ⟨?_, by simp⟩
    unfold writeMeta
    exact List.mem_append_right _ (List.mem_singleton.mpr rfl)
  · simp [hcp]
  · intro x hx hpx
    have hx2 : x ∈ ((writeMeta store env ts cp).filter
        (fun m => m.fenv == env)).filterMap (fun m => m.parsed) :=
      hperm.mem_iff.mp hx
    obtain ⟨m, hm, hparse⟩ := List.mem_filterMap.mp hx2
    have hmw : m ∈ writeMeta store env ts cp := List.mem_of_mem_filter hm
    have hfenv : m.fenv = env := by simpa using List.of_mem_filter hm
    unfold writeMeta at hmw
    rcases List.mem_append.mp hmw with hold | hnew
    · exfalso
      have hmstore : m ∈ store := List.mem_of_mem_filter hold
      have hcond := List.of_mem_filter hold
      have hwfm := hwf m hmstore hfenv
      rw [hparse] at hwfm
      have hxts : x.timestamp = m.fts := by simpa using hwfm
      have hxts2 : x.timestamp = ts := by simpa using hpx
      have hne : ¬m.fenv = env ∨ ¬m.fts = ts := by
        simpa using hcond
      rcases hne with h1 | h2
      · exact h1 hfenv
      · exact h2 (by rw [← hxts, hxts2])
    · have hmnew : m = ⟨env, ts, some cp⟩ := by simpa using hnew
      rw [hmnew] at hparse
      exact (Option.some.inj hparse).symm
      
/-- find_checkpoint with an explicit id reduces to find? on the listed
checkpoints once that search succeeds. -/
theorem find_checkpoint_of_find? {store : List MetaFile} {env ts : Str}
    {cp : SyncCheckpoint}
    (h : (list_checkpoints store env).find? (fun x => x.timestamp == ts) = some cp) :
    find_checkpoint store env (some ts) = some cp := by
  unfold find_checkpoint
  cases hL : list_checkpoints store env with
  | nil =>
    rw [hL] at h
    simp [List.find?] at h
  | cons f rest =>
    rw [hL] at h
    exact h

/-- Looking up a backup directory just created or replaced yields its
content. -/
theorem lookup_setBackup (bs : List (Str × FileMap)) (k : Str) (v : FileMap) :
    lookupBackup (setBackup bs k v) k = some v := by
  simp [lookupBackup, setBackup, List.lookup]

/-- rollback on a configured environment with a resolving checkpoint runs
the restore transfer from the backup directory of the checkpoint over the
target, then the best-effort git-restore step, and reports true when the
restore exits cleanly. -/
theorem rollback_found (cfg : ConfigData) (ro : RollbackOracle) (st : WorldState)
    (env ts : Str) (cp : SyncCheckpoint) (e : EnvEntry)
    (hl : cfg.envs.lookup env = some e)
    (hfind : find_checkpoint st.metaStore env (some ts) = some cp)
    (hrok : ro.restoreRun.exitCode = 0) :
    rollback cfg ro st env (some ts)
      = Except.ok (true,
          git_restore ro cp
            { st with
              target :=
                ro.restoreRun.effect (lookupBackup st.backups cp.backup_path)
                  st.target }) := by
  unfold rollback ctxOf
  rw [hl, hfind, hrok]
  rfl

/-- The condition under which the best-effort hard reset of rollback
actually runs and succeeds: the checkpoint captured a revision id that is
neither absent nor empty, and the reset run reports success. -/
def resetApplies (git_commit : Option Str) (ro : RollbackOracle) : Bool :=
  match git_commit with
  | some c => !c.isEmpty && ro.gitReset.ok
  | none => false

/-- The git-restore step, phrased through resetApplies. -/
theorem git_restore_eq (ro : RollbackOracle) (cp : SyncCheckpoint)
    (st : WorldState) :
    git_restore ro cp st
      = if resetApplies cp.git_commit ro then
          { st with target := ro.gitReset.effect st.target }
        else st := by
  unfold git_restore resetApplies
  cases cp.git_commit <;> rfl

/-- A world whose target holds one uncommitted modification of a tracked
file, used by the C2 counterexample. -/
def stC2x : WorldState :=
  ⟨emptyFs,
   (fun p => if p = [("a.py".data)] then some ("modified".data) else none),
   [], []⟩

/-- A sync oracle for the C2 counterexample: a backup run following the
mirroring contract, and a captured head revision (the environment is under
version control). -/
def oC2x : SyncOracle :=
  { oracleDemo with
    backupRun := ⟨0, [], [], rsyncMirror excludePatterns false⟩,
    headCommit := some ("abc".data) }

/-- A rollback oracle for the C2 counterexample: a restore run following
the mirroring contract, and a successful hard reset whose working-tree
effect puts the tracked file a.py back at its committed content. -/
def roC2x : RollbackOracle :=
  ⟨⟨0, [], fun m d =>
      match m with
      | some mm => rsyncMirror excludePatterns true mm d
      | none => d⟩,
   ⟨true, fun t => fun p =>
      if p = [("a.py".data)] then some ("committed".data) else t p⟩⟩

/-- The checkpoint the C2 counterexample creates. -/
def cpC2x : SyncCheckpoint :=
  { timestamp := ("20240101-000000".data), env_name := ("b".data),
    backup_path := backupDirName ("b".data) ("20240101-000000".data),
    git_commit := some ("abc".data) }

/-- C2 counterexample: in a version-controlled environment with an
uncommitted change to a tracked file, create followed by an immediate
rollback is not byte-identical: the rsync restore puts the modified bytes
back, after which the best-effort hard reset to the captured revision
(safe_sync.py lines 226-232) overwrites the tracked file with its
committed content.  Concretely, the non-excluded file a.py holds the text
modified before the checkpoint and the text committed after the round
trip, with both transfer runs following the mirroring contract and the
reset succeeding. -/
theorem C2_counterexample :
    pathExcluded excludePatterns [("a.py".data)] = false
    ∧ (create_checkpoint oC2x ⟨("b".data), entDemo⟩ stC2x).1 = Except.ok cpC2x
    ∧ (rollback cfgDemo roC2x (create_checkpoint oC2x ⟨("b".data), entDemo⟩ stC2x).2
        ("b".data) (some cpC2x.timestamp)).map
        (fun r => (r.1, r.2.target [("a.py".data)]))
      = Except.ok (true, some ("committed".data))
    ∧ ¬ stC2x.target [("a.py".data)] = some ("committed".data) :=
  ⟨by decide, rfl, rfl, by decide⟩

/-- C2 (amended): creating a checkpoint and immediately rolling back to its
id succeeds; it restores every file not matching a standard deny pattern
(the shared rsync exclude list) byte-identical to its pre-checkpoint
content whenever the best-effort hard reset does not apply (no captured
revision, an empty one, or a failing reset), and when a nonempty captured
revision is reset successfully, that same byte-identical restored tree is
additionally overwritten by the working-tree effect of the reset, so
tracked files end at the content of the captured revision rather than
their pre-checkpoint bytes.  Hypotheses: the backup directory name is
fresh, the metadata directory is well formed, and the two transfer runs
follow the external mirroring contract. -/
theorem C2_create_rollback_restores (cfg : ConfigData) (o : SyncOracle)
    (ro : RollbackOracle) (st : WorldState) (env : Str) (c : EnvContext)
    (hc : ctxOf cfg env = Except.ok c)
    (hwf : wfStore st.metaStore env)
    (hfresh : lookupBackup st.backups (backupDirName env o.timestamp) = none)
    (hbok : o.backupRun.exitCode = 0)
    (hbeff : o.backupRun.effect = rsyncMirror excludePatterns false)
    (hrok : ro.restoreRun.exitCode = 0)
    (hreff : ∀ m d, ro.restoreRun.effect (some m) d
      = rsyncMirror excludePatterns true m d) :
    ∃ cp st1 st2,
      create_checkpoint o c st = (Except.ok cp, st1)
      ∧ rollback cfg ro st1 env (some cp.timestamp) = Except.ok (true, st2)
      ∧ cp.git_commit = o.headCommit
      ∧ (resetApplies cp.git_commit ro = false →
          ∀ p, pathExcluded excludePatterns p = false → st2.target p = st.target p)
      ∧ (resetApplies cp.git_commit ro = true →
          ∃ restored : FileMap,
            st2.target = ro.gitReset.effect restored
            ∧ ∀ p, pathExcluded excludePatterns p = false →
                restored p = st.target p) := by
  obtain ⟨e, hl, rfl⟩ : ∃ e, cfg.envs.lookup env = some e ∧ c = ⟨env, e⟩ := by
    unfold ctxOf at hc
    cases hl0 : cfg.envs.lookup env with
    | none =>
      rw [hl0] at hc
      exact Except.noConfusion hc
    | some e =>
      rw [hl0] at hc
      refine ⟨e, rfl, ?_⟩
      injection hc with h
      exact h.symm
  have hbok23 : ok23 o.backupRun.exitCode = true := by
    rw [hbok]
    rfl
  have hcc : create_checkpoint o ⟨env, e⟩ st
      = (Except.ok { timestamp := o.timestamp, env_name := env,
                     backup_path := backupDirName env o.timestamp,
                     git_commit := o.headCommit },
         { st with
           backups := setBackup st.backups (backupDirName env o.timestamp)
             (o.backupRun.effect st.target
               ((lookupBackup st.backups (backupDirName env o.timestamp)).getD emptyFs)),
           metaStore := writeMeta st.metaStore env o.timestamp
             { timestamp := o.timestamp, env_name := env,
               backup_path := backupDirName env o.timestamp,
               git_commit := o.headCommit } }) := by
    unfold create_checkpoint
    rw [hbok23]
    rfl
  have hfind : find_checkpoint
      (writeMeta st.metaStore env o.timestamp
        { timestamp := o.timestamp, env_name := env,
          backup_path := backupDirName env o.timestamp,
          git_commit := o.headCommit }) env (some o.timestamp)
      = some { timestamp := o.timestamp, env_name := env,
               backup_path := backupDirName env o.timestamp,
               git_commit := o.headCommit } :=
    find_checkpoint_of_find?
      (list_checkpoints_writeMeta_find st.metaStore env o.timestamp _ rfl hwf.1)
  have hrest : ∀ p, pathExcluded excludePatterns p = false →
      ro.restoreRun.effect
        (lookupBackup
          (setBackup st.backups (backupDirName env o.timestamp)
            (o.backupRun.effect st.target
              ((lookupBackup st.backups (backupDirName env o.timestamp)).getD emptyFs)))
          (backupDirName env o.timestamp))
        st.target p = st.target p := by
    intro p hp
    rw [lookup_setBackup, hreff, hbeff, hfresh]
    simp only [rsyncMirror, hp, Bool.false_eq_true, if_false]
    cases hsp : st.target p <;> simp [emptyFs, hsp]
  refine ⟨_, _, _, hcc, rollback_found cfg ro _ env _ _ e hl hfind hrok, rfl,
    ?_, ?_⟩
  · intro hna p hp
    rw [git_restore_eq, hna]
    simp only [Bool.false_eq_true, if_false]
    exact hrest p hp
  · intro ha
    rw [git_restore_eq, ha]
    simp only [if_true]
    exact ⟨_, rfl, hrest⟩

/-- A benign sync oracle for the C2 witness: a backup run following the
mirroring contract and no captured revision. -/
def oC2w : SyncOracle :=
  { oracleDemo with
    backupRun := ⟨0, [], [], rsyncMirror excludePatterns false⟩ }

/-- A benign rollback oracle for the C2 witness: a restore run following
the mirroring contract; the reset never runs since no revision was
captured. -/
def roC2w : RollbackOracle :=
  ⟨⟨0, [], fun m d =>
      match m with
      | some mm => rsyncMirror excludePatterns true mm d
      | none => d⟩,
   ⟨true, fun t => t⟩⟩

/-- Witness for C2 at a concrete environment without a captured revision:
the round trip is byte-identical on non-excluded paths. -/
theorem C2_witness :
    ∃ cp st1 st2,
      create_checkpoint oC2w ⟨("b".data), entDemo⟩ stDemo = (Except.ok cp, st1)
      ∧ rollback cfgDemo roC2w st1 ("b".data) (some cp.timestamp)
          = Except.ok (true, st2)
      ∧ ∀ p, pathExcluded excludePatterns p = false →
          st2.target p = stDemo.target p := by
  obtain ⟨cp, st1, st2, h1, h2, hgc, h4, h5⟩ :=
    C2_create_rollback_restores cfgDemo oC2w roC2w stDemo ("b".data)
      ⟨("b".data), entDemo⟩ rfl (by decide) rfl rfl rfl rfl (fun m d => rfl)
  refine ⟨cp, st1, st2, h1, h2, h4 ?_⟩
  rw [hgc]
  rfl

/-- The cleanup loop deletes, among the metadata files, exactly those
matching the environment with one of the processed timestamps. -/
theorem cleanup_foldl_metaStore (env : Str) (cps : List SyncCheckpoint)
    (st : WorldState) :
    (cps.foldl (fun s cp =>
      { s with
        backups := removeBackup s.backups cp.backup_path,
        metaStore := s.metaStore.filter
          (fun m => !(m.fenv == env && m.fts == cp.timestamp)) }) st).metaStore
    = st.metaStore.filter
        (fun m => !(m.fenv == env && cps.any (fun cp => m.fts == cp.timestamp))) := by
  induction cps generalizing st with
  | nil => simp
  | cons cp cps ih =>
    rw [List.foldl_cons, ih]
    simp only [List.filter_filter]
    apply List.filter_congr
    intro m _
    simp only [List.any_cons]
    cases m.fenv == env <;> cases m.fts == cp.timestamp <;>
      cases cps.any (fun c2 => m.fts == c2.timestamp) <;> rfl

/-- The cleanup loop removes, among the backup directories, exactly those
named as the backup path of one of the processed checkpoints. -/
theorem cleanup_foldl_backups (env : Str) (cps : List SyncCheckpoint)
    (st : WorldState) :
    (cps.foldl (fun s cp =>
      { s with
        backups := removeBackup s.backups cp.backup_path,
        metaStore := s.metaStore.filter
          (fun m => !(m.fenv == env && m.fts == cp.timestamp)) }) st).backups
    = st.backups.filter
        (fun eb => !(cps.any (fun cp => eb.1 == cp.backup_path))) := by
  induction cps generalizing st with
  | nil => simp
  | cons cp cps ih =>
    rw [List.foldl_cons, ih]
    show (removeBackup st.backups cp.backup_path).filter _ = _
    unfold removeBackup
    simp only [List.filter_filter]
    apply List.filter_congr
    intro eb _
    simp only [List.any_cons]
    cases eb.1 == cp.backup_path <;>
      cases cps.any (fun c2 => eb.1 == c2.backup_path) <;> rfl

/-- Looking up a key in an association list filtered by a predicate failing
on that key yields nothing. -/
theorem lookup_filter_none (bs : List (Str × FileMap))
    (pred : Str × FileMap → Bool) (k : Str)
    (h : ∀ e, e.1 = k → pred e = false) :
    lookupBackup (bs.filter pred) k = none := by
  induction bs with
  | nil => rfl
  | cons e bs ih =>
    obtain ⟨k1, v1⟩ := e
    by_cases he : pred (k1, v1) = true
    · rw [List.filter_cons_of_pos he]
      have hne : k1 ≠ k := by
        intro hk
        rw [h (k1, v1) hk] at he
        exact Bool.noConfusion he
      have hbeq : (k == k1) = false := by
        simpa using fun hk => hne hk.symm
      unfold lookupBackup at ih ⊢
      rw [List.lookup, hbeq]
      exact ih
    · have he0 : pred (k1, v1) = false := by
        cases h2 : pred (k1, v1)
        · rfl
        · exact absurd h2 he
      rw [List.filter_cons_of_neg (by simp [he0])]
      exact ih

/-- Filtering metadata files before parsing equals filtering the parsed
checkpoints, when the predicate on a file agrees with the predicate on its
parse result. -/
theorem filterMap_filter_comm (l : List MetaFile) (pred : MetaFile → Bool)
    (q : SyncCheckpoint → Bool)
    (h : ∀ m ∈ l, ∀ x, m.parsed = some x → pred m = q x) :
    (l.filter pred).filterMap (fun m => m.parsed)
      = (l.filterMap (fun m => m.parsed)).filter q := by
  induction l with
  | nil => rfl
  | cons m rest ih =>
    have hrest := ih (fun m2 hm2 x hx => h m2 (List.mem_cons_of_mem _ hm2) x hx)
    cases hpm : m.parsed with
    | none =>
      rw [List.filterMap_cons_none hpm]
      by_cases hp : pred m = true
      · rw [List.filter_cons_of_pos hp, List.filterMap_cons_none hpm]
        exact hrest
      · rw [List.filter_cons_of_neg hp]
        exact hrest
    | some x =>
      have hpq : pred m = q x := h m (List.mem_cons_self _ _) x hpm
      rw [List.filterMap_cons_some hpm]
      by_cases hp : pred m = true
      · rw [List.filter_cons_of_pos hp, List.filterMap_cons_some hpm,
          List.filter_cons_of_pos (by rw [← hpq]; exact hp)]
        rw [hrest]
      · rw [List.filter_cons_of_neg hp,
          List.filter_cons_of_neg (by rw [← hpq]; exact hp)]
        exact hrest

/-- The timestamps of the parsed checkpoints form a sublist of the
filename timestamps, in a store where contents record filename
timestamps. -/
theorem ts_map_sublist (l : List MetaFile)
    (h : ∀ m ∈ l, ∀ x, m.parsed = some x → x.timestamp = m.fts) :
    ((l.filterMap (fun m => m.parsed)).map (fun c => c.timestamp)).Sublist
      (l.map (fun m => m.fts)) := by
  induction l with
  | nil => simp
  | cons m rest ih =>
    have hrest := ih (fun m2 hm2 x hx => h m2 (List.mem_cons_of_mem _ hm2) x hx)
    cases hpm : m.parsed with
    | none =>
      rw [List.filterMap_cons_none hpm, List.map_cons]
      exact hrest.cons _
    | some x =>
      rw [List.filterMap_cons_some hpm, List.map_cons, List.map_cons,
        h m (List.mem_cons_self _ _) x hpm]
      exact hrest.cons₂ _

/-- From the well-formedness of the store to the parse correspondence on
its matching entries. -/
theorem wf_ts_eq {store : List MetaFile} {env : Str}
    (hwf : ∀ m ∈ store, m.fenv = env →
      (m.parsed.all fun c => c.timestamp == m.fts) = true) :
    ∀ m ∈ store.filter (fun m => m.fenv == env),
      ∀ x, m.parsed = some x → x.timestamp = m.fts := by
  intro m hm x hx
  have hmem := List.mem_of_mem_filter hm
  have hfe : m.fenv = env := by simpa using List.of_mem_filter hm
  have hall := hwf m hmem hfe
  rw [hx] at hall
  simpa using hall

/-- Deleting the metadata files carrying the dropped timestamps and then
listing the remaining parses equals filtering the dropped timestamps out of
the parsed checkpoints, in a store whose matching contents record their
filename timestamps. -/
theorem metaStore_filter_parsed (store : List MetaFile) (env : Str)
    (dropped : List SyncCheckpoint)
    (hcorr : ∀ m ∈ store.filter (fun m => m.fenv == env),
      ∀ x, m.parsed = some x → x.timestamp = m.fts) :
    ((store.filter
        (fun m => !(m.fenv == env
          && dropped.any (fun cp => m.fts == cp.timestamp)))).filter
        (fun m => m.fenv == env)).filterMap (fun m => m.parsed)
      = ((store.filter (fun m => m.fenv == env)).filterMap
          (fun m => m.parsed)).filter
          (fun x => !(dropped.any (fun cp => x.timestamp == cp.timestamp))) := by
  induction store with
  | nil => rfl
  | cons m rest ih =>
    have hcorr_rest : ∀ m2 ∈ rest.filter (fun m2 => m2.fenv == env),
        ∀ x, m2.parsed = some x → x.timestamp = m2.fts := by
      intro m2 hm2 x hx
      have h1 := List.mem_of_mem_filter hm2
      have h2 := List.of_mem_filter hm2
      exact hcorr m2 (List.mem_filter.mpr ⟨List.mem_cons_of_mem _ h1, h2⟩) x hx
    have ih2 := ih hcorr_rest
    by_cases hfe : (m.fenv == env) = true
    · cases hparse : m.parsed with
      | none =>
        cases hany : dropped.any (fun cp => m.fts == cp.timestamp) with
        | false =>
          simp only [List.filter_cons, hfe, hany, Bool.and_false, Bool.not_false,
            if_true, List.filterMap_cons_none hparse, Bool.and_true, Bool.true_and]
          simpa [List.filterMap_cons_none hparse] using ih2
        | true =>
          simp only [List.filter_cons, hfe, hany, Bool.and_true, Bool.true_and,
            Bool.not_true, Bool.false_eq_true, if_false,
            List.filterMap_cons_none hparse]
          simpa [List.filterMap_cons_none hparse] using ih2
      | some x =>
        have hxts : x.timestamp = m.fts :=
          hcorr m (List.mem_filter.mpr ⟨List.mem_cons_self _ _, hfe⟩) x hparse
        cases hany : dropped.any (fun cp => m.fts == cp.timestamp) with
        | false =>
          simp [List.filter_cons, hfe, hany, List.filterMap_cons_some hparse,
            hxts] at ih2 ⊢
          exact ih2
        | true =>
          simp [List.filter_cons, hfe, hany, List.filterMap_cons_some hparse,
            hxts] at ih2 ⊢
          exact ih2
    · have hfe0 : (m.fenv == env) = false := by
        cases h2 : m.fenv == env
        · rfl
        · exact absurd h2 hfe
      simp only [List.filter_cons, hfe0, Bool.false_and, Bool.not_false, if_true,
        Bool.false_eq_true, if_false]
      exact ih2

/-- Filtering with a predicate that accepts the first k elements and
rejects the rest keeps exactly the first k elements. -/
theorem filter_take_drop {α : Type _} (l : List α) (k : Nat) (q : α → Bool)
    (h1 : ∀ x ∈ l.take k, q x = true) (h2 : ∀ x ∈ l.drop k, q x = false) :
    l.filter q = l.take k := by
  conv_lhs => rw [← List.take_append_drop k l]
  rw [List.filter_append, List.filter_eq_self.mpr h1,
    List.filter_eq_nil_iff.mpr (fun a ha => by rw [h2 a ha]; exact Bool.noConfusion),
    List.append_nil]

/-- C6: cleanup_checkpoints keeps exactly the keep most recent checkpoints:
afterwards the listing has length min(keep, n) and contains exactly the
first keep entries of the previous listing; the backup directory of every
older checkpoint is removed; and the metadata outcome is the same whatever backup
directories exist on disk (a missing backup directory for one older
checkpoint never aborts the processing of the remaining ones). -/
theorem C6_cleanup_keeps_most_recent (env : Str) (keep : Nat) (st : WorldState)
    (hwf : wfStore st.metaStore env) :
    (list_checkpoints (cleanup_checkpoints env keep st).metaStore env).length
        = min keep (list_checkpoints st.metaStore env).length
    ∧ (∀ c, c ∈ list_checkpoints (cleanup_checkpoints env keep st).metaStore env ↔
          c ∈ (list_checkpoints st.metaStore env).take keep)
    ∧ (∀ cp ∈ (list_checkpoints st.metaStore env).drop keep,
          lookupBackup (cleanup_checkpoints env keep st).backups cp.backup_path = none)
    ∧ (∀ bs, (cleanup_checkpoints env keep { st with backups := bs }).metaStore
          = (cleanup_checkpoints env keep st).metaStore) := by
  have hcorr := wf_ts_eq hwf.1
  have hmeta : (cleanup_checkpoints env keep st).metaStore
      = st.metaStore.filter
          (fun m => !(m.fenv == env
            && ((list_checkpoints st.metaStore env).drop keep).any
                 (fun cp => m.fts == cp.timestamp))) := by
    unfold cleanup_checkpoints
    exact cleanup_foldl_metaStore env _ st
  have hback : (cleanup_checkpoints env keep st).backups
      = st.backups.filter
          (fun eb => !(((list_checkpoints st.metaStore env).drop keep).any
            (fun cp => eb.1 == cp.backup_path))) := by
    unfold cleanup_checkpoints
    exact cleanup_foldl_backups env _ st
  have hafter : ((cleanup_checkpoints env keep st).metaStore.filter
        (fun m => m.fenv == env)).filterMap (fun m => m.parsed)
      = ((st.metaStore.filter (fun m => m.fenv == env)).filterMap
          (fun m => m.parsed)).filter
          (fun x => !(((list_checkpoints st.metaStore env).drop keep).any
            (fun cp => x.timestamp == cp.timestamp))) := by
    rw [hmeta]
    exact metaStore_filter_parsed st.metaStore env _ hcorr
  have hperm : List.Perm (list_checkpoints st.metaStore env)
      ((st.metaStore.filter (fun m => m.fenv == env)).filterMap
        (fun m => m.parsed)) :=
    List.perm_insertionSort tsGe _
  have hnodupM : (((st.metaStore.filter (fun m => m.fenv == env)).filterMap
      (fun m => m.parsed)).map (fun c => c.timestamp)).Nodup :=
    List.Nodup.sublist (ts_map_sublist _ hcorr) hwf.2
  have hnodupB : ((list_checkpoints st.metaStore env).map
      (fun c => c.timestamp)).Nodup :=
    ((hperm.map (fun c => c.timestamp)).nodup_iff).mpr hnodupM
  have hdropfalse : ∀ x ∈ (list_checkpoints st.metaStore env).drop keep,
      (!(((list_checkpoints st.metaStore env).drop keep).any
        (fun cp => x.timestamp == cp.timestamp))) = false := by
    intro x hx
    have h1 : ((list_checkpoints st.metaStore env).drop keep).any
        (fun cp => x.timestamp == cp.timestamp) = true :=
      List.any_eq_true.mpr ⟨x, hx, by simp⟩
    rw [h1]
    rfl
  have htakekeep : ∀ x ∈ (list_checkpoints st.metaStore env).take keep,
      (!(((list_checkpoints st.metaStore env).drop keep).any
        (fun cp => x.timestamp == cp.timestamp))) = true := by
    intro x hx
    have hne : ∀ cp ∈ (list_checkpoints st.metaStore env).drop keep,
        ¬x.timestamp = cp.timestamp := by
      intro cp hcp heq
      have hsplit : (list_checkpoints st.metaStore env).map (fun c => c.timestamp)
          = ((list_checkpoints st.metaStore env).take keep).map (fun c => c.timestamp)
            ++ ((list_checkpoints st.metaStore env).drop keep).map
                (fun c => c.timestamp) := by
        rw [← List.map_append, List.take_append_drop]
      have hnd := hnodupB
      rw [hsplit] at hnd
      have hdisj := (List.nodup_append.mp hnd).2.2
      exact hdisj (List.mem_map_of_mem _ hx)
        (by rw [heq]; exact List.mem_map_of_mem _ hcp)
    have h1 : ((list_checkpoints st.metaStore env).drop keep).any
        (fun cp => x.timestamp == cp.timestamp) = false := by
      cases h2 : ((list_checkpoints st.metaStore env).drop keep).any
          (fun cp => x.timestamp == cp.timestamp)
      · rfl
      · exfalso
        obtain ⟨cp, hcp, hbeq⟩ := List.any_eq_true.mp h2
        exact hne cp hcp (by simpa using hbeq)
    rw [h1]
    rfl
  have hfiltersplit := filter_take_drop (list_checkpoints st.metaStore env) keep
    _ htakekeep hdropfalse
  have hfinalperm : List.Perm
      (list_checkpoints (cleanup_checkpoints env keep st).metaStore env)
      ((list_checkpoints st.metaStore env).take keep) := by
    have h0 : List.Perm
        (list_checkpoints (cleanup_checkpoints env keep st).metaStore env)
        (((cleanup_checkpoints env keep st).metaStore.filter
          (fun m => m.fenv == env)).filterMap (fun m => m.parsed)) :=
      List.perm_insertionSort tsGe _
    rw [hafter] at h0
    have h1 := (hperm.symm).filter
      (fun x => !(((list_checkpoints st.metaStore env).drop keep).any
        (fun cp => x.timestamp == cp.timestamp)))
    exact hfiltersplit ▸ (h0.trans h1)
  refine ⟨?_, fun c => hfinalperm.mem_iff, ?_, ?_⟩
  · rw [hfinalperm.length_eq, List.length_take]
  · intro cp hcp
    rw [hback]
    apply lookup_filter_none
    intro e he
    have h1 : ((list_checkpoints st.metaStore env).drop keep).any
        (fun c2 => e.1 == c2.backup_path) = true :=
      List.any_eq_true.mpr ⟨cp, hcp, by rw [he]; simp⟩
    rw [h1]
    rfl
  · intro bs
    have h1 := cleanup_foldl_metaStore env
      ((list_checkpoints st.metaStore env).drop keep) { st with backups := bs }
    have h2 := cleanup_foldl_metaStore env
      ((list_checkpoints st.metaStore env).drop keep) st
    unfold cleanup_checkpoints
    exact h1.trans h2.symm

/-- A concrete world with two valid checkpoints and one unparseable
metadata file, used by the witnesses. -/
def stC6 : WorldState :=
  ⟨emptyFs, emptyFs,
   [(("backup-e-1".data), emptyFs), (("backup-e-3".data), emptyFs)],
   [⟨("e".data), ("1".data),
      some { timestamp := ("1".data), env_name := ("e".data),
             backup_path := ("backup-e-1".data) }⟩,
    ⟨("e".data), ("3".data),
      some { timestamp := ("3".data), env_name := ("e".data),
             backup_path := ("backup-e-3".data) }⟩,
    ⟨("e".data), ("9".data), none⟩]⟩

/-- Witness for C6 at a concrete store, keeping one of two checkpoints. -/
theorem C6_witness :
    wfStore stC6.metaStore ("e".data)
    ∧ (list_checkpoints (cleanup_checkpoints ("e".data) 1 stC6).metaStore
        ("e".data)).length
      = min 1 (list_checkpoints stC6.metaStore ("e".data)).length :=
  ⟨by decide, (C6_cleanup_keeps_most_recent ("e".data) 1 stC6 (by decide)).1⟩
